import Mathlib

/-!
Verification of the SAME (Specific Area Message Encoding) encoder/decoder
backend against its specification.

The development shallowly embeds the Python source files:
  backend/decoder.py        (SAMEDecoder.parse_same_message)
  backend/encoder.py        (SAMEEncoder and build_same_message)
  backend/python_decoder.py (PythonSAMEDecoder: L1 symbol recovery and the
                             L2 message state machine)

Python strings are embedded as `List Char`, Python ints as `Nat`/`Int`,
fallible code as `Except`/`Option`.  Floating-point quantities that reach
the digital logic only through comparisons or integer truncation are
embedded by their exact integer values, each derivation recorded in a
comment at its definition.
-/

namespace SameSpec

/-! ## Python string primitives used by decoder.py and encoder.py -/

/-- Characters stripped by the Python `str.strip()` default (ASCII whitespace;
Python also strips other Unicode whitespace, which cannot occur in SAME
bodies). -/
def pyIsSpace (c : Char) : Bool :=
  c = ' ' || c = '\t' || c = '\n' || c = '\r' || c = '\x0b' || c = '\x0c'

/-- Strip characters satisfying `p` from both ends, as Python `str.strip`. -/
def stripEnds (p : Char → Bool) (l : List Char) : List Char :=
  ((l.dropWhile p).reverse.dropWhile p).reverse

/-- Python `s.strip()`. -/
def pyStrip (l : List Char) : List Char := stripEnds pyIsSpace l

/-- Python `s.strip('-')`. -/
def pyStripDashes (l : List Char) : List Char := stripEnds (fun c => c = '-') l

/-- Python `s.split(sep)` for a single-character separator: splits at every
occurrence and keeps empty fields, `"".split(sep) = ['']`. -/
def pySplit (sep : Char) : List Char → List (List Char)
  | [] => [[]]
  | c :: rest =>
    match pySplit sep rest with
    | [] => [[c]]
    | h :: t => if c = sep then [] :: h :: t else (c :: h) :: t

/-! ## decoder.py — SAMEDecoder.parse_same_message -/

/-- Result record of `parse_same_message`: the six fields of the Python result
dict; fields the parser could not locate stay `none` (`locations` empty). -/
structure ParsedSAME where
  org : Option (List Char)
  event : Option (List Char)
  locations : List (List Char)
  duration : Option (List Char)
  timestamp : Option (List Char)
  originator : Option (List Char)
deriving DecidableEq, Repr

/-- Python `part.startswith('+')`. -/
def startsWithPlus (p : List Char) : Bool :=
  match p with
  | '+' :: _ => true
  | _ => false

/-- The scan `for i, part in enumerate(parts[2:], start=2): if
part.startswith('+'): duration_idx = i; break` — the first argument is the
`start` of the enumeration. -/
def findPlusIdx : Nat → List (List Char) → Option Nat
  | _, [] => none
  | i, p :: rest => if startsWithPlus p then some i else findPlusIdx (i + 1) rest

/-- `SAMEDecoder.parse_same_message` (decoder.py lines 233-268).  The source
tests `if duration_idx:`; the scan starts at index 2, so the index is never 0
and truthiness coincides with `is not None`.  `result["timestamp"]` and
`result["originator"]` are assigned only under the corresponding bound checks,
which is exactly the semantics of `List.get?`. -/
def parseSameMessage (s : List Char) : ParsedSAME :=
  let parts := pySplit '-' (pyStripDashes (pyStrip s))
  match parts with
  | p0 :: p1 :: p2 :: rest =>
    match findPlusIdx 2 (p2 :: rest) with
    | some di =>
      { org := some p0, event := some p1,
        locations := (parts.drop 2).take (di - 2),
        duration := parts.get? di,
        timestamp := parts.get? (di + 1),
        originator := parts.get? (di + 2) }
    | none =>
      { org := some p0, event := some p1, locations := [],
        duration := none, timestamp := none, originator := none }
  | _ =>
    { org := none, event := none, locations := [],
      duration := none, timestamp := none, originator := none }

/-- `parse_same_message` with every raw Python subscript (`parts[0]`,
`parts[1]`, `parts[duration_idx]`) embedded as a fallible lookup, so that
totality of the source is a theorem rather than an artifact of the
embedding. -/
def parseSameMessageChecked (s : List Char) : Option ParsedSAME :=
  let parts := pySplit '-' (pyStripDashes (pyStrip s))
  if parts.length < 3 then
    some { org := none, event := none, locations := [],
           duration := none, timestamp := none, originator := none }
  else do
    let p0 ← parts.get? 0
    let p1 ← parts.get? 1
    match findPlusIdx 2 (parts.drop 2) with
    | some di => do
      let d ← parts.get? di
      some { org := some p0, event := some p1,
             locations := (parts.drop 2).take (di - 2),
             duration := some d,
             timestamp := parts.get? (di + 1),
             originator := parts.get? (di + 2) }
    | none =>
      some { org := some p0, event := some p1, locations := [],
             duration := none, timestamp := none, originator := none }

/-- The index returned by the duration scan lies inside the scanned slice. -/
lemma findPlusIdx_bounds :
    ∀ (l : List (List Char)) (i j : Nat), findPlusIdx i l = some j →
      i ≤ j ∧ j - i < l.length := by
  intro l
  induction l with
  | nil => intro i j h; simp [findPlusIdx] at h
  | cons p rest ih =>
    intro i j h
    unfold findPlusIdx at h
    by_cases hp : startsWithPlus p = true
    · simp [hp] at h
      simp only [List.length_cons]
      omega
    · simp [hp] at h
      have h2 := ih (i + 1) j h
      simp only [List.length_cons]
      omega

/-- An in-range index always has a value under `List.get?`. -/
lemma get?_isSome_of_lt {α : Type} :
    ∀ (l : List α) (n : Nat), n < l.length → ∃ a, l.get? n = some a := by
  intro l
  induction l with
  | nil => intro n h; simp at h
  | cons a t ih =>
    intro n h
    cases n with
    | zero => exact ⟨a, rfl⟩
    | succ m => exact ih m (by simpa using h)

/-- Claim C9: `parse_same_message` never raises on any input string.  Every
raw Python subscript in the source is protected by a bound check or by the
result of the duration scan, so the fallible embedding always succeeds and
returns the record of the total embedding; moreover when the duration field
is not located the dependent fields stay null and the location list stays
empty rather than producing an error. -/
theorem c9_parse_never_raises :
    ∀ s : List Char,
      parseSameMessageChecked s = some (parseSameMessage s) ∧
      ((parseSameMessage s).duration = none →
        (parseSameMessage s).locations = [] ∧
        (parseSameMessage s).timestamp = none ∧
        (parseSameMessage s).originator = none) := by
  intro s
  simp only [parseSameMessage, parseSameMessageChecked]
  generalize pySplit '-' (pyStripDashes (pyStrip s)) = parts
  rcases parts with - | ⟨p0, - | ⟨p1, - | ⟨p2, rest⟩⟩⟩
  · simp
  · simp
  · simp
  · have hlen : ¬((p0 :: p1 :: p2 :: rest).length < 3) := by
      simp only [List.length_cons]; omega
    rcases hfi : findPlusIdx 2 (p2 :: rest) with - | di
    · simp [hlen, hfi, List.get?]
    · have hb := findPlusIdx_bounds (p2 :: rest) 2 di hfi
      have hlt : di < (p0 :: p1 :: p2 :: rest).length := by
        simp only [List.length_cons] at hb ⊢; omega
      obtain ⟨d, hd⟩ := get?_isSome_of_lt (p0 :: p1 :: p2 :: rest) di hlt
      simp only [List.get?_eq_getElem?] at hd
      have h3 : ¬(rest.length + 1 + 1 + 1 < 3) := by omega
      simp [hlen, hfi, hd, h3]

/-- Witness for claim C9 at a message with no duration field: the dependent
fields are null and the location list is empty. -/
theorem c9_parse_never_raises_witness :
    (parseSameMessage "a-b-c".data).duration = none ∧
    ((parseSameMessage "a-b-c".data).locations = [] ∧
      (parseSameMessage "a-b-c".data).timestamp = none ∧
      (parseSameMessage "a-b-c".data).originator = none) :=
  ⟨by decide, (c9_parse_never_raises "a-b-c".data).2 (by decide)⟩

/-- Claim C1 (the code evaluated at the failing input): on the message body
recovered from the severe-thunderstorm descriptor, `parse_same_message`
returns an empty location list and a null duration — the duration `+0100` is
joined to the last location code inside a single dash-separated field, so the
scan for a field beginning with a plus sign finds nothing.  The repository
test suite (test_parse_same_message_multiple_locations, test_duration_formats)
expects the locations and the duration to be extracted from exactly this glued
form. -/
theorem c1_parser_misses_glued_duration :
    parseSameMessage ("WXR-SVR-024031-024033+0100-3191500-PHILLYWX-".data) =
      { org := some "WXR".data, event := some "SVR".data, locations := [],
        duration := none, timestamp := none, originator := none } := by
  decide

/-! ## encoder.py — build_same_message -/

/-- Regex class `[A-Z]`. -/
def isUpperLetter (c : Char) : Bool := 'A' ≤ c && c ≤ 'Z'

/-- Regex class `\d` (ASCII; the Python `re` module also admits other Unicode
decimal digits under its default flags, which cannot occur in SAME fields). -/
def isDigitChar (c : Char) : Bool := '0' ≤ c && c ≤ '9'

/-- Regex class `[A-Z0-9/\- ]`. -/
def isOriginatorChar (c : Char) : Bool :=
  isUpperLetter c || isDigitChar c || c = '/' || c = '-' || c = ' '

/-- Anchored Python regex match `re.match(r'^core$', s)`: in Python the `$`
anchor also matches just before a single trailing newline. -/
def pyFullMatch (core : List Char → Bool) (s : String) : Bool :=
  core s.data ||
    (match s.data.getLast? with
     | some c => c = '\n' && core s.data.dropLast
     | none => false)

/-- A list of exactly `n` characters all satisfying `p`. -/
def exactlyN (n : Nat) (p : Char → Bool) (l : List Char) : Bool :=
  l.length == n && l.all p

/-- `re.match(r'^[A-Z]{3}$', event_code)`. -/
def matchesEventCode (s : String) : Bool := pyFullMatch (exactlyN 3 isUpperLetter) s

/-- `re.match(r'^\d{6}$', code)`. -/
def matchesLocationCode (s : String) : Bool := pyFullMatch (exactlyN 6 isDigitChar) s

/-- `re.match(r'^\+\d{4}$', duration)`. -/
def matchesDuration (s : String) : Bool :=
  pyFullMatch
    (fun l => match l with
              | '+' :: ds => exactlyN 4 isDigitChar ds
              | _ => false) s

/-- `re.match(r'^\d{7}$', timestamp)`. -/
def matchesTimestamp (s : String) : Bool := pyFullMatch (exactlyN 7 isDigitChar) s

/-- `re.match(r'^[A-Z0-9/\- ]{1,8}$', originator)`. -/
def matchesOriginator (s : String) : Bool :=
  pyFullMatch (fun l => 1 ≤ l.length && l.length ≤ 8 && l.all isOriginatorChar) s

/-- `build_same_message` (encoder.py lines 137-198).  `ValueError` is embedded
as `Except.error` carrying the message.  A `None` timestamp is replaced by the
wall clock formatted as JJJHHMM, passed in as `nowJJJHHMM` (the source calls
`datetime.datetime.now().strftime` there and performs no validation on the
result). -/
def buildSameMessage (eventCode : String) (locationCodes : List String)
    (duration : String) (timestamp : Option String) (originator : String)
    (nowJJJHHMM : String) : Except String String :=
  if ¬ matchesEventCode eventCode then
    .error "event_code must be exactly 3 uppercase letters"
  else if locationCodes = [] ∨ locationCodes.length > 31 then
    .error "location_codes must contain 1-31 location codes"
  else
    match locationCodes.find? (fun c => ! matchesLocationCode c) with
    | some bad => .error ("Invalid location code: " ++ bad ++ ". Must be 6 digits")
    | none =>
      if ¬ matchesDuration duration then
        .error "duration must be in +HHMM format (e.g., +0030)"
      else
        match (match timestamp with
               | none => Except.ok nowJJJHHMM
               | some t =>
                 if ¬ matchesTimestamp t then
                   Except.error "timestamp must be 7 digits (JJJHHMM format)"
                 else Except.ok t : Except String String) with
        | .error e => .error e
        | .ok ts =>
          if ¬ matchesOriginator originator then
            .error "originator must be 1-8 characters (letters, numbers, /, -, space)"
          else
            let org := if eventCode ∈ ["EAN", "EAT", "NIC", "NPT", "RMT", "RWT"] then "PEP"
                       else if eventCode ∈ ["TOR", "SVR", "FFW", "EVI"] then "WXR"
                       else "CIV"
            let locations := String.intercalate "-" locationCodes
            .ok ("ZCZC-" ++ org ++ "-" ++ eventCode ++ "-" ++ locations ++ duration
                  ++ "-" ++ ts ++ "-" ++ originator ++ "-")

/-- Claim C6 counterexample: `build_same_message` accepts the duration
`+0099` (minutes 99 > 59) and the timestamp `3672460` (Julian day 367,
hour 24, minute 60 — all outside the ranges of the descriptor grammar) and
returns the formatted message instead of raising, refuting the claim that
every grammar-range violation is rejected. -/
theorem c6_build_accepts_out_of_range :
    buildSameMessage "TOR" ["024031"] "+0099" (some "3672460") "SCIENCE" "3191500"
      = Except.ok "ZCZC-WXR-TOR-024031+0099-3672460-SCIENCE-" := by
  rfl

/-- Claim C6 as amended: `build_same_message` validates shapes only.  With the
other fields well formed, any duration matching `+` followed by four digits
and any seven-digit timestamp are accepted verbatim (no range check on
minutes, Julian day, hour or minute), while a duration or timestamp failing
its shape regex is rejected with an error message. -/
theorem c6_build_validates_shape_only :
    (∀ duration timestamp : String,
        matchesDuration duration = true →
        matchesTimestamp timestamp = true →
        buildSameMessage "TOR" ["024031"] duration (some timestamp) "SCIENCE" "3191500"
          = Except.ok ("ZCZC-WXR-TOR-024031" ++ duration ++ "-" ++ timestamp ++ "-SCIENCE-"))
    ∧ (∀ duration : String,
        matchesDuration duration = false →
        buildSameMessage "TOR" ["024031"] duration (some "3191500") "SCIENCE" "3191500"
          = Except.error "duration must be in +HHMM format (e.g., +0030)")
    ∧ (∀ timestamp : String,
        matchesTimestamp timestamp = false →
        buildSameMessage "TOR" ["024031"] "+0030" (some timestamp) "SCIENCE" "3191500"
          = Except.error "timestamp must be 7 digits (JJJHHMM format)") := by
  have hev : matchesEventCode "TOR" = true := by decide
  have hloc : matchesLocationCode "024031" = true := by decide
  have horig : matchesOriginator "SCIENCE" = true := by decide
  have hdur : matchesDuration "+0030" = true := by decide
  have hintc : String.intercalate "-" ["024031"] = "024031" := by decide
  refine ⟨?_, ?_, ?_⟩
  · intro duration timestamp hd ht
    simp [buildSameMessage, hd, ht, hev, hloc, horig, hintc, String.append_assoc]
  · intro duration hd
    simp [buildSameMessage, hd, hev, hloc]
  · intro timestamp ht
    simp [buildSameMessage, ht, hev, hloc, hdur]

/-- Witness for the amended claim C6 at the concrete out-of-range inputs
`+0099` and `9999999`, both of which match their shape regexes. -/
theorem c6_build_validates_shape_only_witness :
    buildSameMessage "TOR" ["024031"] "+0099" (some "9999999") "SCIENCE" "3191500"
      = Except.ok ("ZCZC-WXR-TOR-024031" ++ "+0099" ++ "-" ++ "9999999" ++ "-SCIENCE-") :=
  c6_build_validates_shape_only.1 "+0099" "9999999" (by decide) (by decide)

/-! ## python_decoder.py — L1 symbol recovery (demodulate_fsk_with_decode)

The float correlation metric `f` enters the digital logic only through the
comparisons `f > 0` and `f < 0`, so a correlator output is embedded by an
integer `fs` carrying its sign.  The DLL gain is 0.5 in both sync states and
`phase` stays a nonnegative machine integer far below 2^53, so the source
expression `int(phase * dll_gain)` is exactly `phase / 2` (floating-point
halving is exact and `int` truncates toward zero); likewise for
`int((0x10000 - phase) * dll_gain)`. -/

/-- `INTEGRATOR_MAX` (python_decoder.py line 125). -/
def integratorMax : Int := 10

/-- `phase_increment = int(0x10000 * BAUD_RATE * SUBSAMP / self.sample_rate)`
with `BAUD_RATE = 520.83`, `SUBSAMP = 2` and the default 22050 Hz rate: the
double-precision value is 3095.9741387755103, truncated to 3095. -/
def phaseIncrement : Nat := 3095

/-- The DLL phase-adjustment block (python_decoder.py lines 185-196), executed
when a bit transition is detected.  `DLL_MAX_INC = 8192`; the `else` of the
source attaches to the outer comparison against `0x8000 - inc // 8` only. -/
def dllAdjust (inc phase : Nat) : Nat :=
  if phase < 0x8000 - inc / 8 then
    if phase > inc / 2 then phase - min (phase / 2) 8192 else phase
  else
    if phase < 0x10000 - inc / 2 then phase + min ((0x10000 - phase) / 2) 8192 else phase

/-- `_is_valid_same_char` (python_decoder.py lines 264-292). -/
def isValidSameChar (byteVal : Nat) : Bool :=
  if byteVal &&& 0x80 ≠ 0 then false
  else if byteVal = 13 ∨ byteVal = 10 then true
  else if 32 ≤ byteVal ∧ byteVal ≤ 126 then true
  else false

/-- The per-window demodulator state (the streaming fields of
`self.state` that `demodulate_fsk_with_decode` reads and writes, minus the
decoded-byte list, which the step returns incrementally). -/
structure L1State where
  phase : Nat
  integrator : Int
  dcdShreg : Nat
  lasts : Nat
  syncLocked : Bool
  byteCounter : Nat
deriving DecidableEq, Repr

/-- `reset_state` restricted to the L1 fields (python_decoder.py lines 85-92). -/
def resetL1 : L1State :=
  { phase := 0, integrator := 0, dcdShreg := 0, lasts := 0,
    syncLocked := false, byteCounter := 0 }

/-- The integrator update (python_decoder.py lines 174-178). -/
def integratorUpdate (integ : Int) (fs : Int) : Int :=
  if fs > 0 ∧ integ < integratorMax then integ + 1
  else if fs < 0 ∧ integ > -integratorMax then integ - 1
  else integ

/-- One iteration of the demodulation loop body for a single correlator
output of sign `fs` (python_decoder.py lines 167-246).  Returns the new state
and the decoded byte appended to `decoded_bytes`, if any.  The loop control
around the body (window selection, the non-advancing `continue` after a
mid-stream preamble byte, and the 300-byte cap) is not modelled here; every
reachable streaming state is a fold of this step over some sign sequence. -/
def l1Step (inc : Nat) (st : L1State) (fs : Int) : L1State × Option Nat :=
  let dcdShifted := (st.dcdShreg <<< 1) &&& 0xFFFFFFFF
  let dcd := if fs > 0 then dcdShifted ||| 1 else dcdShifted
  let integ := integratorUpdate st.integrator fs
  let ph1 := if (dcd ^^^ (dcd >>> 1)) &&& 1 = 1 then dllAdjust inc st.phase else st.phase
  let ph2 := ph1 + inc
  if ph2 ≥ 0x10000 then
    let lastsShifted := st.lasts >>> 1
    let lasts := if integ ≥ 0 then lastsShifted ||| 0x80 else lastsShifted
    if lasts = 0xAB ∧ ¬ st.syncLocked then
      ({ phase := 1, integrator := integ, dcdShreg := dcd, lasts := lasts,
         syncLocked := true, byteCounter := 0 }, none)
    else if st.syncLocked then
      let bc := st.byteCounter + 1
      if bc = 8 then
        if lasts = 0xAB then
          -- remaining preamble byte: discarded (`byte_counter = 0; continue`)
          ({ phase := 1, integrator := integ, dcdShreg := dcd, lasts := lasts,
             syncLocked := true, byteCounter := 0 }, none)
        else if isValidSameChar lasts then
          ({ phase := 1, integrator := integ, dcdShreg := dcd, lasts := lasts,
             syncLocked := true, byteCounter := 0 }, some lasts)
        else
          -- invalid character: lost sync
          ({ phase := 1, integrator := integ, dcdShreg := dcd, lasts := lasts,
             syncLocked := false, byteCounter := 0 }, none)
      else
        ({ phase := 1, integrator := integ, dcdShreg := dcd, lasts := lasts,
           syncLocked := true, byteCounter := bc }, none)
    else
      ({ phase := 1, integrator := integ, dcdShreg := dcd, lasts := lasts,
         syncLocked := false, byteCounter := st.byteCounter }, none)
  else
    ({ phase := ph2, integrator := integ, dcdShreg := dcd, lasts := st.lasts,
       syncLocked := st.syncLocked, byteCounter := st.byteCounter }, none)

/-- Folding the demodulator step from reset over a stream of correlator-output
signs; chunk boundaries are invisible to this state (the streaming path loads
and stores exactly these fields between calls). -/
def demodFold (inputs : List Int) : L1State :=
  inputs.foldl (fun s f => (l1Step phaseIncrement s f).1) resetL1

/-- The DLL adjustment that §4.3 of the specification prescribes, read as the
claim reads it: the `else` covers everything outside the conjunction, so a
transition at `phase ≤ PHASE_INC/2` still increments the phase. -/
def specDllAdjust (inc phase : Nat) : Nat :=
  if inc / 2 < phase ∧ phase < 0x8000 - inc / 8 then
    phase - min (phase / 2) 8192
  else
    if phase < 0x10000 - inc / 2 then phase + min ((0x10000 - phase) / 2) 8192 else phase

/-- The DLL rule actually implemented: decrement strictly inside the interval
(PHASE_INC/2, 0x8000 − PHASE_INC/8), increment on [0x8000 − PHASE_INC/8,
0x10000 − PHASE_INC/2), and leave the phase unchanged everywhere else — in
particular at phase ≤ PHASE_INC/2. -/
def amendedDllAdjust (inc phase : Nat) : Nat :=
  if inc / 2 < phase ∧ phase < 0x8000 - inc / 8 then
    phase - min (phase / 2) 8192
  else if 0x8000 - inc / 8 ≤ phase ∧ phase < 0x10000 - inc / 2 then
    phase + min ((0x10000 - phase) / 2) 8192
  else
    phase

/-- Claim C5 counterexample: the phase value 0 is reachable (it is the reset
state) and a transition is detected on the very first positive correlator
output, yet the code leaves the phase unadjusted (the new phase is just the
phase increment), while the claimed rule would add min(0x8000, 8192) = 8192.
-/
theorem c5_dll_rule_counterexample :
    dllAdjust phaseIncrement 0 = 0 ∧
    specDllAdjust phaseIncrement 0 = 8192 ∧
    (decide (dllAdjust phaseIncrement 0 = specDllAdjust phaseIncrement 0)) = false ∧
    (l1Step phaseIncrement resetL1 1).1.phase = phaseIncrement := by
  refine ⟨by decide, by decide, by decide, by decide⟩

/-- Claim C5 as amended: on every transition the code adjusts the phase by the
nested rule — decrement only strictly between PHASE_INC/2 and 0x8000 −
PHASE_INC/8, increment only from 0x8000 − PHASE_INC/8 up to 0x10000 −
PHASE_INC/2, and no adjustment at all in the remaining cases, including every
phase ≤ PHASE_INC/2. -/
theorem c5_dll_rule_amended :
    ∀ inc phase : Nat, dllAdjust inc phase = amendedDllAdjust inc phase := by
  intro inc phase
  unfold dllAdjust amendedDllAdjust
  by_cases hA : phase < 0x8000 - inc / 8
  · by_cases hB : inc / 2 < phase
    · simp [hA, hB]
    · have hnotand : ¬(inc / 2 < phase ∧ phase < 0x8000 - inc / 8) := by tauto
      have hge : ¬(0x8000 - inc / 8 ≤ phase) := by omega
      simp [hA, hB, hnotand, hge]
  · have hnotand : ¬(inc / 2 < phase ∧ phase < 0x8000 - inc / 8) := by tauto
    have hge : 0x8000 - inc / 8 ≤ phase := by omega
    by_cases hC : phase < 0x10000 - inc / 2
    · simp [hA, hC, hnotand, hge]
    · simp [hA, hC, hnotand, hge]

set_option maxHeartbeats 1600000 in
/-- Claim C8: each correlator output updates the integrator to
clamp(integrator + sign f, −10, +10), and from reset the integrator stays in
[−10, 10] after any stream of correlator outputs, irrespective of how the
stream is cut into chunks. -/
theorem c8_integrator_clamped :
    (∀ (st : L1State) (fs : Int),
        -10 ≤ st.integrator → st.integrator ≤ 10 →
        (l1Step phaseIncrement st fs).1.integrator
          = max (-10) (min 10 (st.integrator + fs.sign)))
    ∧ (∀ inputs : List Int,
        -10 ≤ (demodFold inputs).integrator ∧ (demodFold inputs).integrator ≤ 10) := by
  have hstep : ∀ (inc : Nat) (st : L1State) (fs : Int),
      (l1Step inc st fs).1.integrator = integratorUpdate st.integrator fs := by
    intro inc st fs
    simp only [l1Step]
    repeat' split
    all_goals rfl
  have hclamp : ∀ (i fs : Int), -10 ≤ i → i ≤ 10 →
      integratorUpdate i fs = max (-10) (min 10 (i + fs.sign)) := by
    intro i fs h1 h2
    unfold integratorUpdate integratorMax
    rcases lt_trichotomy fs 0 with hf | hf | hf
    · rw [Int.sign_eq_neg_one_of_neg hf]
      split
      · omega
      · split <;> omega
    · subst hf
      simp only [Int.sign_zero]
      split
      · omega
      · split <;> omega
    · rw [Int.sign_eq_one_of_pos hf]
      split
      · omega
      · split <;> omega
  have hbound : ∀ (i fs : Int), -10 ≤ i → i ≤ 10 →
      -10 ≤ integratorUpdate i fs ∧ integratorUpdate i fs ≤ 10 := by
    intro i fs h1 h2
    unfold integratorUpdate integratorMax
    split
    · omega
    · split <;> omega
  constructor
  · intro st fs h1 h2
    rw [hstep, hclamp st.integrator fs h1 h2]
  · intro inputs
    suffices h : ∀ (l : List Int) (st : L1State),
        -10 ≤ st.integrator → st.integrator ≤ 10 →
        -10 ≤ (l.foldl (fun s f => (l1Step phaseIncrement s f).1) st).integrator ∧
        (l.foldl (fun s f => (l1Step phaseIncrement s f).1) st).integrator ≤ 10 by
      exact h inputs resetL1 (by decide) (by decide)
    intro l
    induction l with
    | nil => intro st h1 h2; exact ⟨h1, h2⟩
    | cons f rest ih =>
      intro st h1 h2
      rw [List.foldl_cons]
      have hb := hbound st.integrator f h1 h2
      rw [← hstep phaseIncrement st f] at hb
      exact ih _ hb.1 hb.2

/-- Witness for claim C8 at a concrete state and input: one positive
correlator output from reset moves the integrator to clamp(0 + 1) = 1. -/
theorem c8_integrator_clamped_witness :
    (l1Step phaseIncrement resetL1 1).1.integrator
      = max (-10) (min 10 (resetL1.integrator + (1 : Int).sign)) :=
  c8_integrator_clamped.1 resetL1 1 (by decide) (by decide)

/-! ## python_decoder.py — L2 message state machine -/

/-- `self.state['l2_state']` values. -/
inductive L2Tag
  | idle
  | headerSearch
  | readingMessage
deriving DecidableEq, Repr

/-- The L2 fields of `self.state`. -/
structure L2State where
  l2 : L2Tag
  headerBuffer : List Char
  messageBuffer : List Char
deriving DecidableEq, Repr

/-- `reset_state` restricted to the L2 fields. -/
def resetL2 : L2State := { l2 := .idle, headerBuffer := [], messageBuffer := [] }

/-- An emitted message dict. -/
structure SAMEMessage where
  demodName : String
  headerBegin : String
  lastMessage : List Char
  endOfMessage : Bool
deriving DecidableEq, Repr

/-- Python substring membership `pat in l` for a pattern over characters. -/
def containsSeq (pat : List Char) : List Char → Bool
  | [] => pat.isEmpty
  | c :: rest => pat.isPrefixOf (c :: rest) || containsSeq pat rest

/-- The completeness heuristic of READING_MESSAGE (python_decoder.py lines
383-385): at least six dash-separated parts, a trailing empty part, and a
final field of at most eight characters.  The argument is the reversed part
list; with six or more parts the wildcard arm is unreachable. -/
def completeTail : List (List Char) → Bool
  | lastP :: prevP :: _ => lastP == ([] : List Char) && decide (prevP.length ≤ 8)
  | _ => false

/-- `_process_decoded_byte` (python_decoder.py lines 294-424): one byte
through the L2 machine, returning the new state and the emitted message, if
any. -/
def processDecodedByte (st : L2State) (byteVal : Nat) : L2State × Option SAMEMessage :=
  let char := Char.ofNat byteVal
  match st.l2 with
  | .idle =>
    ({ l2 := .headerSearch, headerBuffer := [char],
       messageBuffer := st.messageBuffer }, none)
  | .headerSearch =>
    let hb := st.headerBuffer ++ [char]
    if hb.length ≥ 4 then
      let header := hb.take 4
      if header = "ZCZC".data then
        ({ l2 := .readingMessage, headerBuffer := hb, messageBuffer := [] }, none)
      else if header = "NNNN".data then
        if st.messageBuffer ≠ [] then
          ({ l2 := .idle, headerBuffer := [], messageBuffer := [] },
            some { demodName := "EAS", headerBegin := "ZCZC",
                   lastMessage := st.messageBuffer, endOfMessage := true })
        else
          ({ l2 := .idle, headerBuffer := [],
             messageBuffer := st.messageBuffer }, none)
      else
        ({ l2 := .headerSearch, headerBuffer := hb.drop 1,
           messageBuffer := st.messageBuffer }, none)
    else
      ({ l2 := .headerSearch, headerBuffer := hb,
         messageBuffer := st.messageBuffer }, none)
  | .readingMessage =>
    let mb := st.messageBuffer ++ [char]
    let parts := pySplit '-' mb
    if parts.length ≥ 6 ∧ completeTail parts.reverse then
      ({ l2 := .readingMessage, headerBuffer := st.headerBuffer, messageBuffer := [] },
        some { demodName := "EAS", headerBegin := "ZCZC",
               lastMessage := mb, endOfMessage := false })
    else if containsSeq "NNNN".data mb then
      ({ l2 := .idle, headerBuffer := [], messageBuffer := [] }, none)
    else if mb.length > 300 then
      ({ l2 := .idle, headerBuffer := st.headerBuffer, messageBuffer := [] },
        some { demodName := "EAS", headerBegin := "ZCZC",
               lastMessage := mb, endOfMessage := false })
    else
      ({ l2 := .readingMessage, headerBuffer := st.headerBuffer,
         messageBuffer := mb }, none)

/-- The per-byte body of the L2 loop of `process_audio_chunk`
(python_decoder.py lines 609-618): preamble bytes are skipped, emitted
messages are appended. -/
def l2ChunkStep (acc : L2State × List SAMEMessage) (b : Nat) : L2State × List SAMEMessage :=
  if b = 0xAB then acc
  else
    match processDecodedByte acc.1 b with
    | (st2, some m) => (st2, acc.2 ++ [m])
    | (st2, none) => (st2, acc.2)

/-- The L2 half of `process_audio_chunk`: feed a decoded byte list through the
state machine and collect the completed messages. -/
def processBytesL2 (st : L2State) (bs : List Nat) : L2State × List SAMEMessage :=
  bs.foldl l2ChunkStep (st, [])

/-- Buffer invariant of the L2 machine: outside READING_MESSAGE the message
buffer is empty.  Every transition into IDLE either clears the buffer or
leaves an already-empty buffer, and HEADER_SEARCH is entered only from IDLE
without touching it. -/
def l2BufferInv (st : L2State) : Prop :=
  st.l2 ≠ L2Tag.readingMessage → st.messageBuffer = []

/-- One L2 step preserves the buffer invariant, and under it the machine can
only emit messages with `end_of_message = false`: the emitting NNNN branch of
HEADER_SEARCH requires a nonempty buffer, which the invariant rules out. -/
lemma processDecodedByte_no_eom (st : L2State) (b : Nat) (h : l2BufferInv st) :
    l2BufferInv (processDecodedByte st b).1 ∧
    ∀ m, (processDecodedByte st b).2 = some m → m.endOfMessage = false := by
  rcases st with ⟨tag, hb, mb⟩
  cases tag with
  | idle =>
    have hmb : mb = [] := h (by simp)
    subst hmb
    simp [processDecodedByte, l2BufferInv]
  | headerSearch =>
    have hmb : mb = [] := h (by simp)
    subst hmb
    simp only [processDecodedByte]
    repeat' split
    all_goals simp_all [l2BufferInv]
  | readingMessage =>
    simp only [processDecodedByte]
    repeat' split
    all_goals simp_all [l2BufferInv]

/-- Folding the L2 chunk loop from an invariant state never appends a message
with `end_of_message = true`. -/
lemma processBytesL2_no_eom :
    ∀ (bs : List Nat) (st : L2State) (ms : List SAMEMessage),
      l2BufferInv st → (∀ m ∈ ms, m.endOfMessage = false) →
      ∀ m ∈ (bs.foldl l2ChunkStep (st, ms)).2, m.endOfMessage = false := by
  intro bs
  induction bs with
  | nil => intro st ms _ hms; simpa using hms
  | cons b rest ih =>
    intro st ms h hms
    rw [List.foldl_cons]
    by_cases hb : b = 0xAB
    · simpa [l2ChunkStep, hb] using ih st ms h hms
    · have hinv := processDecodedByte_no_eom st b h
      rcases hpd : processDecodedByte st b with ⟨st2, mo⟩
      rw [hpd] at hinv
      cases mo with
      | none =>
        simpa [l2ChunkStep, hb, hpd] using ih st2 ms hinv.1 hms
      | some m =>
        have hm : m.endOfMessage = false := hinv.2 m rfl
        have hms2 : ∀ m2 ∈ ms ++ [m], m2.endOfMessage = false := by
          intro m2 hm2
          rcases List.mem_append.mp hm2 with h1 | h1
          · exact hms m2 h1
          · rcases List.mem_singleton.mp h1 with rfl
            exact hm
        simpa [l2ChunkStep, hb, hpd] using ih st2 (ms ++ [m]) hinv.1 hms2

/-- The TOR descriptor of the seed scenario, as decoded bytes. -/
def torDescriptorBytes : List Nat :=
  "ZCZC-WXR-TOR-024031+0030-3171500-PHILLYWX-".data.map Char.toNat

/-- The byte stream an ideally demodulated `encode(descriptor)` transmission
delivers to the L2 loop: the descriptor three times, then the `NNNN`
end-of-message burst three times (the 0xAB preamble bytes are filtered out by
the loop itself). -/
def c3ByteStream : List Nat :=
  (torDescriptorBytes ++ torDescriptorBytes ++ torDescriptorBytes)
    ++ ("NNNN".data.map Char.toNat) ++ ("NNNN".data.map Char.toNat)
    ++ ("NNNN".data.map Char.toNat)

set_option maxRecDepth 16384 in
/-- Claim C3 (the code evaluated at the failing input): from reset, NO byte
stream whatsoever can make the streaming L2 machine emit a record with
`end_of_message = true` — after a header is emitted the machine sits in
READING_MESSAGE with an empty buffer, an arriving NNNN is absorbed into the
buffer and silently resets the machine, and the emitting NNNN branch of
HEADER_SEARCH requires a nonempty buffer, which is impossible there.  In
particular the stream of the encoded TOR transmission with its EOM bursts
yields exactly three records, all with `end_of_message = false`. -/
theorem c3_no_end_of_message_record :
    (∀ bs : List Nat,
        ((processBytesL2 resetL2 bs).2.all (fun m => ! m.endOfMessage)) = true)
    ∧ (processBytesL2 resetL2 c3ByteStream).2.map (fun m => m.endOfMessage)
        = [false, false, false] := by
  constructor
  · intro bs
    rw [List.all_eq_true]
    intro m hm
    have h := processBytesL2_no_eom bs resetL2 [] (by intro hx; rfl) (by intro m2 hm2; simp at hm2) m
    simp only [processBytesL2] at hm
    simp [h hm]
  · decide

/-! ## encoder.py — SAMEEncoder waveform generation

The waveform is a list of real samples; the numpy float arrays are embedded
over ℝ.  `np.arange(self.bit_duration * self.sample_rate)` evaluates the
double-precision product `(1.0 / (520 + 5/6)) * 43750 = 83.99999999999999`
and therefore yields the integers 0..83 — 84 samples per bit. -/

/-- `MARK_FREQUENCY = 2083 + (1/3)` Hz. -/
noncomputable def markFreq : ℝ := 2083 + 1 / 3

/-- `SPACE_FREQUENCY = 1562.5` Hz. -/
noncomputable def spaceFreq : ℝ := 1562.5

/-- `SAMPLE_RATE = 43750` Hz. -/
noncomputable def sampleRateTx : ℝ := 43750

/-- Samples per bit at the TX rate (see the section comment). -/
def samplesPerBit : Nat := 84

/-- `_mark_bit` (encoder.py lines 30-33): one bit period of the mark tone at
0.8 amplitude; sample `n` is taken at local time `n / SAMPLE_RATE`, so the
sinusoid starts from phase 0 of its own time vector. -/
noncomputable def markBit : List ℝ :=
  (List.range samplesPerBit).map
    (fun n : Nat => Real.sin (2 * Real.pi * markFreq * ((n : ℝ) / sampleRateTx)) * 0.8)

/-- `_space_bit` (encoder.py lines 35-38): one bit period of the space tone at
full amplitude, likewise from phase 0 of a local time vector. -/
noncomputable def spaceBit : List ℝ :=
  (List.range samplesPerBit).map
    (fun n : Nat => Real.sin (2 * Real.pi * spaceFreq * ((n : ℝ) / sampleRateTx)))

/-- `_encode_byte` (encoder.py lines 40-51): eight tone segments, least
significant bit first. -/
noncomputable def encodeByte (b : Nat) : List ℝ :=
  (List.range 8).flatMap (fun i => if (b >>> i) &&& 1 = 1 then markBit else spaceBit)

/-- `_generate_preamble` (encoder.py lines 53-69): sixteen repetitions of the
explicit mark/mark/space/mark/space/mark/space/mark pattern of `0xAB` sent
LSB-first. -/
noncomputable def generatePreamble : List ℝ :=
  (List.range 16).flatMap
    (fun _ => markBit ++ markBit ++ spaceBit ++ markBit ++ spaceBit ++ markBit
      ++ spaceBit ++ markBit)

/-- `np.zeros(n)`. -/
noncomputable def silence (n : Nat) : List ℝ := List.replicate n 0

/-- The bytes of the `"NNNN"` end-of-message body. -/
def nnnnBytes : List Nat := "NNNN".data.map Char.toNat

/-- The three EOM bursts of `encode` (encoder.py lines 113-120): preamble,
`NNNN`, one second of silence, three times. -/
noncomputable def eomSection : List ℝ :=
  (List.range 3).flatMap
    (fun _ => generatePreamble ++ nnnnBytes.flatMap encodeByte ++ silence 43750)

/-- The float waveform assembled by `encode` (encoder.py lines 100-120) for a
message given as its byte values: 20000 samples of leading silence, three
header bursts, then unconditionally the three `NNNN` EOM bursts.  The final
`*= 32767` / `np.int16` conversion and the RIFF wrapping are not modelled;
claims about them are stated on this float buffer. -/
noncomputable def encodeSignal (msg : List Nat) : List ℝ :=
  silence 20000
    ++ (List.range 3).flatMap
        (fun _ => generatePreamble ++ msg.flatMap encodeByte ++ silence 43750)
    ++ (List.range 3).flatMap
        (fun _ => generatePreamble ++ nnnnBytes.flatMap encodeByte ++ silence 43750)

/-- Modelled from the spec: the waveform `encode(descriptor, include_eom =
false)` is specified to produce — the output ends after the three header
bursts, with no `NNNN` section.  The `include_eom` parameter is absent from
the source even though api.py and test_decoder.py pass it. -/
noncomputable def headerOnlySignal (msg : List Nat) : List ℝ :=
  silence 20000
    ++ (List.range 3).flatMap
        (fun _ => generatePreamble ++ msg.flatMap encodeByte ++ silence 43750)

/-- Length of a flat map whose pieces all have length `L`. -/
lemma flatMap_const_length {α β : Type} (f : α → List β) (L : Nat) :
    ∀ l : List α, (∀ a ∈ l, (f a).length = L) →
      (l.flatMap f).length = l.length * L := by
  intro l
  induction l with
  | nil => intro _; simp
  | cons a t ih =>
    intro h
    have ha := h a (by simp)
    have ht := ih (fun x hx => h x (by simp [hx]))
    simp only [List.flatMap_cons, List.length_append, List.length_cons, ha, ht]
    ring

/-- Each tone segment holds one bit period of samples. -/
lemma markBit_length : markBit.length = 84 := by
  unfold markBit samplesPerBit
  rw [List.length_map, List.length_range]

/-- The space segment has the same sample count. -/
lemma spaceBit_length : spaceBit.length = 84 := by
  unfold spaceBit samplesPerBit
  rw [List.length_map, List.length_range]

/-- A byte is eight bit periods of audio. -/
lemma encodeByte_length (b : Nat) : (encodeByte b).length = 672 := by
  unfold encodeByte
  rw [flatMap_const_length _ 84]
  · simp
  · intro i _
    split
    · exact markBit_length
    · exact spaceBit_length

/-- The preamble burst is sixteen bytes of audio. -/
lemma generatePreamble_length : generatePreamble.length = 10752 := by
  unfold generatePreamble
  rw [flatMap_const_length _ 672]
  · simp
  · intro i _
    simp [markBit_length, spaceBit_length]

/-- The EOM body is four bytes of audio. -/
lemma nnnnBytes_length : nnnnBytes.length = 4 := rfl

/-- Audio length of the `NNNN` body. -/
lemma nnnnAudio_length : (nnnnBytes.flatMap encodeByte).length = 2688 := by
  rw [flatMap_const_length _ 672]
  · rw [nnnnBytes_length]
  · intro b _
    exact encodeByte_length b

/-- A second of inter-burst silence. -/
lemma silence_length (n : Nat) : (silence n).length = n := by
  unfold silence
  rw [List.length_replicate]

/-- Audio length of one complete `NNNN` burst. -/
lemma eomBurst_length :
    (generatePreamble ++ nnnnBytes.flatMap encodeByte ++ silence 43750).length = 57190 := by
  rw [List.length_append, List.length_append, generatePreamble_length,
    nnnnAudio_length, silence_length]

/-- The EOM section holds three complete `NNNN` bursts. -/
lemma eomSection_length : eomSection.length = 171570 := by
  unfold eomSection
  rw [flatMap_const_length _ 57190]
  · rw [List.length_range]
  · intro i _
    exact eomBurst_length

/-- Claim C2 (the code evaluated against the claimed `include_eom = false`
behaviour): for every message, the waveform of `encode` is the
three-header-burst waveform followed by the three `NNNN` EOM bursts, and is
exactly 171570 samples longer than the waveform that ends after the header
bursts — the EOM section is appended unconditionally, there being no
`include_eom` parameter (api.py and test_decoder.py pass one regardless,
which raises a TypeError). -/
theorem c2_encode_always_appends_eom :
    ∀ msg : List Nat,
      encodeSignal msg = headerOnlySignal msg ++ eomSection ∧
      (encodeSignal msg).length = (headerOnlySignal msg).length + 171570 := by
  intro msg
  have hstruct : encodeSignal msg = headerOnlySignal msg ++ eomSection := rfl
  refine ⟨hstruct, ?_⟩
  rw [hstruct, List.length_append, eomSection_length]

/-- Indexing into a flat map of constant-length pieces over a number range. -/
lemma flatMap_range'_get? {β : Type} (f : Nat → List β) (L : Nat)
    (hf : ∀ j, (f j).length = L) :
    ∀ (n a i k : Nat), i < n → k < L →
      ((List.range' a n).flatMap f).get? (L * i + k) = (f (a + i)).get? k := by
  intro n
  induction n with
  | zero => intro a i k hi _; omega
  | succ m ih =>
    intro a i k hi hk
    rw [List.range'_succ, List.flatMap_cons]
    cases i with
    | zero =>
      rw [List.get?_append (by rw [hf a]; omega)]
      simp
    | succ j =>
      have hLa : (f a).length = L := hf a
      have hmul : L * (j + 1) = L * j + L := by ring
      rw [List.get?_append_right (by omega)]
      have harith : L * (j + 1) + k - (f a).length = L * j + k := by omega
      rw [harith, ih (a + 1) j k (by omega) hk]
      have hidx : a + 1 + j = a + (j + 1) := by omega
      rw [hidx]

/-- Indexing into a mapped number range. -/
lemma get?_map_range' {β : Type} (g : Nat → β) :
    ∀ (m a k : Nat), k < m →
      ((List.range' a m).map g).get? k = some (g (a + k)) := by
  intro m
  induction m with
  | zero => intro a k hk; omega
  | succ mm ih =>
    intro a k hk
    rw [List.range'_succ, List.map_cons]
    cases k with
    | zero => simp
    | succ kk =>
      show ((List.range' (a + 1) mm).map g).get? kk = _
      rw [ih (a + 1) kk (by omega)]
      have hidx : a + 1 + kk = a + (kk + 1) := by omega
      rw [hidx]

/-- Claim C7: each character is emitted as exactly eight tone segments taken
LSB-first — sample `k` of segment `i` is `sin(2π·MARK·(k/SR))·0.8` when bit
`i` is set and `sin(2π·SPACE·(k/SR))` otherwise, each segment starting from
phase 0 of its own local time vector (`k = 0` gives phase 0) — and the
preamble is exactly sixteen LSB-first repetitions of the byte `0xAB`. -/
theorem c7_eight_tones_lsb_first :
    (∀ b : Nat, (encodeByte b).length = 8 * 84) ∧
    (∀ b i k : Nat, i < 8 → k < 84 →
        (encodeByte b).get? (84 * i + k) =
          some (if (b >>> i) &&& 1 = 1
                then Real.sin (2 * Real.pi * markFreq * ((k : ℝ) / sampleRateTx)) * 0.8
                else Real.sin (2 * Real.pi * spaceFreq * ((k : ℝ) / sampleRateTx)))) ∧
    generatePreamble = (List.range 16).flatMap (fun _ => encodeByte 0xAB) := by
  have hseg : ∀ b i : Nat,
      ((if (b >>> i) &&& 1 = 1 then markBit else spaceBit).length) = 84 := by
    intro b i
    split
    · exact markBit_length
    · exact spaceBit_length
  refine ⟨?_, ?_, ?_⟩
  · intro b
    rw [encodeByte_length]
  · intro b i k hi hk
    unfold encodeByte
    rw [List.range_eq_range', flatMap_range'_get? _ 84 (hseg b) 8 0 i k hi hk]
    simp only [Nat.zero_add]
    split
    · unfold markBit samplesPerBit
      rw [List.range_eq_range', get?_map_range' _ 84 0 k hk]
      simp
    · unfold spaceBit samplesPerBit
      rw [List.range_eq_range', get?_map_range' _ 84 0 k hk]
      simp
  · have hAB : markBit ++ markBit ++ spaceBit ++ markBit ++ spaceBit ++ markBit
        ++ spaceBit ++ markBit = encodeByte 0xAB := by
      show _ = (List.range 8).flatMap _
      simp [List.range_succ, List.append_assoc]
    simp only [generatePreamble, hAB]

/-- Every sample of a tone segment has magnitude at most 1. -/
lemma abs_le_one_of_mem_encodeByte :
    ∀ (b : Nat) (x : ℝ), x ∈ encodeByte b → |x| ≤ 1 := by
  intro b x hx
  simp only [encodeByte, List.mem_flatMap, List.mem_range] at hx
  obtain ⟨i, -, hmem⟩ := hx
  have hmark : ∀ y ∈ markBit, |y| ≤ 1 := by
    intro y hy
    simp only [markBit, List.mem_map, List.mem_range] at hy
    obtain ⟨n, -, rfl⟩ := hy
    have hs := Real.abs_sin_le_one (2 * Real.pi * markFreq * ((n : ℝ) / sampleRateTx))
    have hnn := abs_nonneg (Real.sin (2 * Real.pi * markFreq * ((n : ℝ) / sampleRateTx)))
    have h8 : |(0.8 : ℝ)| = 0.8 := by rw [abs_of_pos]; norm_num
    rw [abs_mul, h8]
    nlinarith
  have hspace : ∀ y ∈ spaceBit, |y| ≤ 1 := by
    intro y hy
    simp only [spaceBit, List.mem_map, List.mem_range] at hy
    obtain ⟨n, -, rfl⟩ := hy
    exact Real.abs_sin_le_one _
  revert hmem
  split
  · exact fun hmem => hmark x hmem
  · exact fun hmem => hspace x hmem

/-- Every sample of a full burst (preamble, body, inter-burst silence) has
magnitude at most 1. -/
lemma abs_le_one_of_mem_burst :
    ∀ (msg : List Nat) (x : ℝ),
      x ∈ generatePreamble ++ msg.flatMap encodeByte ++ silence 43750 → |x| ≤ 1 := by
  intro msg x hx
  rcases List.mem_append.mp hx with hx1 | hsil
  · rcases List.mem_append.mp hx1 with hpre | hmsg
    · simp only [generatePreamble, List.mem_flatMap, List.mem_range] at hpre
      obtain ⟨i, -, hmem⟩ := hpre
      have h8 : markBit ++ markBit ++ spaceBit ++ markBit ++ spaceBit ++ markBit
          ++ spaceBit ++ markBit = encodeByte 0xAB := by
        show _ = (List.range 8).flatMap _
        simp [List.range_succ, List.append_assoc]
      rw [h8] at hmem
      exact abs_le_one_of_mem_encodeByte 0xAB x hmem
    · simp only [List.mem_flatMap] at hmsg
      obtain ⟨b, -, hmem⟩ := hmsg
      exact abs_le_one_of_mem_encodeByte b x hmem
  · simp only [silence, List.mem_replicate] at hsil
    rw [hsil.2]
    norm_num

/-- Claim C10: every sample of the float waveform assembled by `encode` for a
descriptor within the 268-character limit lies in [−1, 1], so the final
scaling by 32767 stays within the int16 range. -/
theorem c10_samples_bounded :
    ∀ msg : List Nat, msg.length ≤ 268 →
      ∀ x ∈ encodeSignal msg, |x| ≤ 1 ∧ |32767 * x| ≤ 32767 := by
  intro msg _ x hx
  have habs : |x| ≤ 1 := by
    simp only [encodeSignal] at hx
    rcases List.mem_append.mp hx with hx1 | heom
    · rcases List.mem_append.mp hx1 with hlead | hhdr
      · simp only [silence, List.mem_replicate] at hlead
        rw [hlead.2]; norm_num
      · simp only [List.mem_flatMap, List.mem_range] at hhdr
        obtain ⟨i, -, hmem⟩ := hhdr
        exact abs_le_one_of_mem_burst msg x hmem
    · simp only [List.mem_flatMap, List.mem_range] at heom
      obtain ⟨i, -, hmem⟩ := heom
      exact abs_le_one_of_mem_burst nnnnBytes x hmem
  refine ⟨habs, ?_⟩
  rw [abs_mul]
  calc |(32767 : ℝ)| * |x| ≤ |(32767 : ℝ)| * 1 := by
        exact mul_le_mul_of_nonneg_left habs (abs_nonneg _)
    _ = 32767 := by norm_num

/-- Witness for claim C10 at the tornado-warning descriptor of the test
suite, whose 42 characters satisfy the length precondition. -/
theorem c10_samples_bounded_witness :
    torDescriptorBytes.length ≤ 268 ∧
    ∀ x ∈ encodeSignal torDescriptorBytes, |x| ≤ 1 ∧ |32767 * x| ≤ 32767 :=
  ⟨by decide, c10_samples_bounded torDescriptorBytes (by decide)⟩

/-- Witness for claim C7 at byte 90 (the character Z), bit 1 (which is set:
90 = 0b1011010), sample 0. -/
theorem c7_eight_tones_lsb_first_witness :
    (encodeByte 90).length = 8 * 84 ∧
    (encodeByte 90).get? (84 * 1 + 0) =
      some (if (90 >>> 1) &&& 1 = 1
            then Real.sin (2 * Real.pi * markFreq * (((0 : Nat) : ℝ) / sampleRateTx)) * 0.8
            else Real.sin (2 * Real.pi * spaceFreq * (((0 : Nat) : ℝ) / sampleRateTx))) :=
  ⟨c7_eight_tones_lsb_first.1 90,
   c7_eight_tones_lsb_first.2.1 90 1 0 (by decide) (by decide)⟩

end SameSpec
